import Mathlib

/-!
# Verification of `ragas/metrics/answer_relevance.py`

Shallow embedding of the `AnswerRelevancy` metric and proofs of the spec's
claims about it.

Modelling conventions:

* Embedding vectors are `List ℝ`.  The numpy float computation is embedded as
  exact real arithmetic; a float result that IEEE arithmetic makes non-finite
  (NaN or ±inf, which here can only arise from a zero divisor) is represented
  by `none` in the type `NpFloat := Option ℝ`.
* Operations that raise Python exceptions (missing dataset column, numpy `max`
  on an empty array, `Dataset.add_column` with a length mismatch) are embedded
  in `Except String`.
* The external collaborators are parameters: the embedding client is an
  `Embeddings` structure (the langchain interface used by the code:
  `embed_query` for one text, `embed_documents` for a list of texts) and the
  generation model is a function `llm : String → ℕ → List String` mapping a
  prompt and a completion count to the generated texts.
* A dataset is a `List Row`; a `Row` is an association list of column name to
  cell value, so extra columns of any shape can be carried along.
-/

/-- A non-finite-aware float value: `none` stands for a non-finite IEEE result
(NaN / ±inf), `some x` for the finite value `x`. -/
abbrev NpFloat : Type := Option ℝ

/-- IEEE float division as used by numpy: a zero divisor makes the result
non-finite (`0/0 = NaN`, `x/0 = ±inf`), represented as `none`; otherwise the
exact real quotient. -/
noncomputable def npDiv (x y : ℝ) : NpFloat :=
  if y = 0 then none else some (x / y)

/-- Dot product of two vectors, `np.dot` on equal-length 1-D arrays.
(`List.zipWith` truncates at the shorter list; the code only ever applies it
to equal-length embedding vectors.) -/
def dotList (v w : List ℝ) : ℝ :=
  (List.zipWith (fun a b => a * b) v w).sum

/-- `np.linalg.norm` of a vector: the square root of the sum of squares. -/
noncomputable def l2norm (v : List ℝ) : ℝ :=
  Real.sqrt (dotList v v)

/-- Binary maximum with NaN propagation, the reduction step of `np.max`. -/
noncomputable def npMaxF : NpFloat → NpFloat → NpFloat
  | some a, some b => some (max a b)
  | _, _ => none

/-- `np.ndarray.max()`: raises on an empty array, otherwise reduces with the
NaN-propagating maximum. -/
noncomputable def npMaxE : List NpFloat → Except String NpFloat
  | [] => .error "zero-size array to reduction operation maximum"
  | x :: xs => .ok (xs.foldl npMaxF x)

/-- A cell of the tabular dataset: a text cell or a numeric (float) cell. -/
inductive Value where
  | str (s : String)
  | num (x : NpFloat)

/-- A dataset row: an association list from column name to cell value. -/
structure Row where
  entries : List (String × Value)

/-- Text content of the cell of row `r` in column `c`, when that column is
present and text-valued. -/
def Row.getStr (r : Row) (c : String) : Option String :=
  match r.entries.lookup c with
  | some (Value.str s) => some s
  | _ => none

/-- Whether row `r` already carries a column named `name`. -/
def Row.hasColumn (r : Row) (name : String) : Bool :=
  r.entries.any (fun kv => kv.1 == name)

/-- `dataset[c]` for a text column `c`: the list of cell texts, failing (as the
underlying table library does) when some row lacks the column. -/
def getColumn : List Row → String → Except String (List String)
  | [], _ => .ok []
  | r :: rs, c =>
    match r.getStr c with
    | some s => do
      let rest ← getColumn rs c
      .ok (s :: rest)
    | none => .error ("KeyError: " ++ c)

/-- `Dataset.select`: the sub-dataset given by a list of row indices. -/
def select (d : List Row) (idxs : List ℕ) : List Row :=
  idxs.filterMap (fun i => d.get? i)

/-- `Dataset.add_column`: append one named cell to every row.  As in the
underlying table library, the new name must not duplicate an existing column
(`_check_column_names` raises `ValueError`), and the column must have exactly
one value per row. -/
def add_column (d : List Row) (name : String) (col : List Value) :
    Except String (List Row) :=
  if d.any (fun r => r.hasColumn name) then
    .error "add_column: column name already exists in the dataset"
  else if d.length = col.length then
    .ok (List.zipWith (fun r v => Row.mk (r.entries ++ [(name, v)])) d col)
  else
    .error "add_column: column length does not match dataset length"

/-- The langchain embeddings client interface used by the code. -/
structure Embeddings where
  embed_query : String → List ℝ
  embed_documents : List String → List (List ℝ)

/-- The `QUESTION_GEN` chat prompt template instantiated on an answer:
`QUESTION_GEN.format(answer=ans)`. -/
def QUESTION_GEN_format (answer : String) : String :=
  "\nGenerate question for the given answer.\nAnswer:\nThe PSLV-C56 mission is scheduled to be launched on Sunday, 30 July 2023 at 06:30 IST / 01:00 UTC. It will be launched from the Satish Dhawan Space Centre, Sriharikota, Andhra Pradesh, India \nQuestion: When is the scheduled launch date and time for the PSLV-C56 mission, and where will it be launched from?\n\nAnswer:"
    ++ answer ++ "\nQuestion:\n"

/-- Modelled from the spec: `generate` (from `ragas.metrics.llms`, whose source
is not part of this repository snapshot) "consumes a list of chat-style prompts
and a repetition count; returns, per prompt, that many generated text
completions".  The generation model is the parameter `llm`; `generate` asks it
for `n` completions of each prompt, in prompt order. -/
def generate (prompts : List String) (llm : String → ℕ → List String)
    (n : ℕ) : List (List String) :=
  prompts.map (fun p => llm p n)

/-- Modelled from the spec: `get_batches` (from `ragas.metrics.base`, whose
source is not part of this repository snapshot) partitions the row indices
`0, …, total - 1` into contiguous ranges of size `batch_size`, in order, the
last range possibly shorter. -/
def get_batches (batch_size total : ℕ) : List (List ℕ) :=
  (List.range ((total + batch_size - 1) / batch_size)).map
    (fun i => ((List.range total).drop (i * batch_size)).take batch_size)

/-- The configuration surface of the metric (`name`, `batch_size`,
`strictness`); the two lazily initialized clients are passed to the methods
explicitly. -/
structure AnswerRelevancy where
  name : String := "answer_relevancy"
  batch_size : ℕ := 15
  strictness : ℕ := 3

namespace AnswerRelevancy

/-- `AnswerRelevancy.calculate_similarity`: embed the question, embed all
generated questions, and divide each candidate's dot product with the question
vector by the product of the two L2 norms. -/
noncomputable def calculate_similarity (E : Embeddings) (question : String)
    (generated_questions : List String) : List NpFloat :=
  let question_vec := E.embed_query question
  let gen_question_vec := E.embed_documents generated_questions
  let norm := gen_question_vec.map (fun v => l2norm v * l2norm question_vec)
  List.zipWith npDiv
    (gen_question_vec.map (fun v => dotList v question_vec)) norm

/-- The per-record loop of `_score_batch`: for each `(question, gen_questions)`
pair produced by `zip`, append `calculate_similarity(...).max()`. -/
noncomputable def scoreRecords (E : Embeddings) :
    List String → List (List String) → Except String (List NpFloat)
  | [], _ => .ok []
  | _ :: _, [] => .ok []
  | q :: qs, g :: gs => do
    let s ← npMaxE (calculate_similarity E q g)
    let rest ← scoreRecords E qs gs
    .ok (s :: rest)

/-- `AnswerRelevancy._score_batch`: read the "question" and "answer" columns,
build one `QUESTION_GEN` prompt per answer, request `strictness` completions
per prompt from the generation model, and score each record by the maximum
cosine similarity. -/
noncomputable def _score_batch (m : AnswerRelevancy) (E : Embeddings)
    (llm : String → ℕ → List String) (dataset : List Row) :
    Except String (List NpFloat) := do
  let questions ← getColumn dataset "question"
  let answers ← getColumn dataset "answer"
  let prompts := answers.map (fun ans => QUESTION_GEN_format ans)
  let results := generate prompts llm m.strictness
  scoreRecords E questions results

/-- The batch loop of `score`: score each batch in order and concatenate
(`scores.extend(score)`). -/
noncomputable def scoreBatches (m : AnswerRelevancy) (E : Embeddings)
    (llm : String → ℕ → List String) (dataset : List Row) :
    List (List ℕ) → Except String (List NpFloat)
  | [] => .ok []
  | b :: bs => do
    let s ← m._score_batch E llm (select dataset b)
    let rest ← scoreBatches m E llm dataset bs
    .ok (s ++ rest)

/-- `AnswerRelevancy.score`: score every batch of the dataset and append the
concatenated scores as a new column named `m.name`. -/
noncomputable def score (m : AnswerRelevancy) (E : Embeddings)
    (llm : String → ℕ → List String) (dataset : List Row) :
    Except String (List Row) := do
  let scores ← m.scoreBatches E llm dataset
    (get_batches m.batch_size dataset.length)
  add_column dataset m.name (scores.map Value.num)

end AnswerRelevancy

/-- Following the spec's words (§4.3): "take elementwise dot product with the
question vector, divide by the product of L2 norms" — the cosine similarity of
one candidate vector `v` with the question vector `q`. -/
noncomputable def cosineSimSpec (v q : List ℝ) : NpFloat :=
  npDiv (dotList v q) (l2norm v * l2norm q)

/-- A pointwise embedding client built from a single text-to-vector function,
the behaviour of the langchain `OpenAIEmbeddings` interface (`embed_documents`
embeds each text of the list). -/
def embedOf (f : String → List ℝ) : Embeddings :=
  ⟨f, fun ts => ts.map f⟩

/-- `E` with every candidate (document) embedding scaled by `c`. -/
def scaleDocs (c : ℝ) (E : Embeddings) : Embeddings :=
  ⟨E.embed_query,
    fun ts => (E.embed_documents ts).map (List.map (fun x => c * x))⟩

/-- `E` with the question (query) embedding scaled by `c`. -/
def scaleQuery (c : ℝ) (E : Embeddings) : Embeddings :=
  ⟨fun t => (E.embed_query t).map (fun x => c * x), E.embed_documents⟩

/-- Concrete embedding client: the question "q" embeds to `[1, 0]`, the
candidate "c2" to `[0, 1]`, every other text to `[1, 0]`. -/
def embUnit : Embeddings :=
  embedOf (fun s => if s = "c2" then [0, 1] else [1, 0])

/-- Concrete embedding client: "q" embeds to `[1, 0]`, every other text to
the opposite vector `[-1, 0]`. -/
def embOpp : Embeddings :=
  embedOf (fun s => if s = "q" then [1, 0] else [-1, 0])

/-- Concrete embedding client: "q" embeds to `[1, 0]`, every other text to
the zero vector `[0, 0]`. -/
def embZero : Embeddings :=
  embedOf (fun s => if s = "q" then [1, 0] else [0, 0])

/-- Concrete generation model: `n` copies of the text "x" for any prompt. -/
def llmConst : String → ℕ → List String := fun _ n => List.replicate n "x"

/-- Concrete generation model returning no completions at all. -/
def llmEmpty : String → ℕ → List String := fun _ _ => []

/-- A one-row dataset with question "q" and answer "a". -/
def dsOne : List Row :=
  [Row.mk [("question", Value.str "q"), ("answer", Value.str "a")]]

/-- The metric with its default configuration
(`name = "answer_relevancy"`, `batch_size = 15`, `strictness = 3`). -/
def metricDefault : AnswerRelevancy := {}

/-- The expected output of scoring `dsOne` with `embOpp` and `llmConst`: the
input row with the score column appended, carrying cosine similarity `-1`. -/
def dsOneScored : List Row :=
  [Row.mk [("question", Value.str "q"), ("answer", Value.str "a"),
    ("answer_relevancy", Value.num (some (-1)))]]

/-! ## Basic lemmas about the vector arithmetic -/

lemma dotList_nil_right (v : List ℝ) : dotList v [] = 0 := by
  cases v <;> rfl

lemma dotList_cons (a b : ℝ) (v w : List ℝ) :
    dotList (a :: v) (b :: w) = a * b + dotList v w := by
  simp [dotList]

lemma dotList_eq_sum (v w : List ℝ) :
    dotList v w = ∑ i ∈ Finset.range (min v.length w.length),
      v.getD i 0 * w.getD i 0 := by
  induction v generalizing w with
  | nil => simp [dotList]
  | cons a v ih =>
    cases w with
    | nil => simp [dotList_nil_right]
    | cons b w =>
      rw [dotList_cons, ih]
      simp only [List.length_cons, Nat.succ_min_succ, Finset.sum_range_succ']
      simp [add_comm]

lemma dotList_self_nonneg (v : List ℝ) : 0 ≤ dotList v v := by
  induction v with
  | nil => simp [dotList]
  | cons a v ih =>
    rw [dotList_cons]
    nlinarith [mul_self_nonneg a]

/-- Cauchy-Schwarz for `dotList`, squared form.  It holds even for vectors of
different lengths because `dotList` truncates at the shorter one while the
right-hand side only grows with the extra squares. -/
lemma sq_dotList_le (v w : List ℝ) :
    dotList v w ^ 2 ≤ dotList v v * dotList w w := by
  have hv : ∑ i ∈ Finset.range (min v.length w.length), v.getD i 0 ^ 2 ≤
      dotList v v := by
    rw [dotList_eq_sum v v, min_self]
    simp only [sq]
    exact Finset.sum_le_sum_of_subset_of_nonneg
      (Finset.range_subset.2 (min_le_left _ _))
      (fun i _ _ => mul_self_nonneg _)
  have hw : ∑ i ∈ Finset.range (min v.length w.length), w.getD i 0 ^ 2 ≤
      dotList w w := by
    rw [dotList_eq_sum w w, min_self]
    simp only [sq]
    exact Finset.sum_le_sum_of_subset_of_nonneg
      (Finset.range_subset.2 (min_le_right _ _))
      (fun i _ _ => mul_self_nonneg _)
  have hcs := Finset.sum_mul_sq_le_sq_mul_sq
    (Finset.range (min v.length w.length))
    (fun i => v.getD i 0) (fun i => w.getD i 0)
  rw [dotList_eq_sum v w]
  refine le_trans hcs (mul_le_mul hv hw ?_ (dotList_self_nonneg v))
  exact Finset.sum_nonneg (fun i _ => sq_nonneg _)

lemma l2norm_nonneg (v : List ℝ) : 0 ≤ l2norm v := Real.sqrt_nonneg _

/-- Cauchy-Schwarz for `dotList` in terms of L2 norms. -/
lemma abs_dotList_le (v w : List ℝ) :
    |dotList v w| ≤ l2norm v * l2norm w := by
  have h1 : |dotList v w| = Real.sqrt (dotList v w ^ 2) :=
    (Real.sqrt_sq_eq_abs _).symm
  rw [h1, l2norm, l2norm, ← Real.sqrt_mul (dotList_self_nonneg v)]
  exact Real.sqrt_le_sqrt (sq_dotList_le v w)

/-- Any finite cosine-similarity value lies in `[-1, 1]`. -/
lemma cosineSimSpec_mem_Icc (v q : List ℝ) (x : ℝ)
    (h : cosineSimSpec v q = some x) : -1 ≤ x ∧ x ≤ 1 := by
  unfold cosineSimSpec npDiv at h
  by_cases hz : l2norm v * l2norm q = 0
  · rw [if_pos hz] at h
    exact absurd h (by simp)
  · rw [if_neg hz] at h
    have hx : dotList v q / (l2norm v * l2norm q) = x := Option.some.inj h
    have hpos : 0 < l2norm v * l2norm q :=
      lt_of_le_of_ne (mul_nonneg (l2norm_nonneg v) (l2norm_nonneg q))
        (Ne.symm hz)
    have habs : |x| ≤ 1 := by
      rw [← hx, abs_div, abs_of_pos hpos, div_le_one hpos]
      exact abs_dotList_le v q
    exact abs_le.1 habs

/-! ## Lemmas about the NaN-propagating maximum -/

lemma npMaxF_none_left (b : NpFloat) : npMaxF none b = none := by
  cases b <;> rfl

lemma npMaxF_none_right (a : NpFloat) : npMaxF a none = none := by
  cases a <;> rfl

lemma foldl_npMaxF_none (l : List NpFloat) :
    List.foldl npMaxF none l = none := by
  induction l with
  | nil => rfl
  | cons b l ih => rw [List.foldl_cons, npMaxF_none_left, ih]

/-- If the NaN-propagating fold yields a finite value, its accumulator was
finite. -/
lemma foldl_npMaxF_some_acc (l : List NpFloat) (a : NpFloat) (x : ℝ)
    (h : List.foldl npMaxF a l = some x) : ∃ a' : ℝ, a = some a' := by
  cases a with
  | none =>
    rw [foldl_npMaxF_none] at h
    exact absurd h (by simp)
  | some a' => exact ⟨a', rfl⟩

/-- If the NaN-propagating fold over accumulator `some a` yields `some x`,
then `x` is the accumulator or an element of the list, and it bounds both. -/
lemma foldl_npMaxF_some (l : List NpFloat) (a x : ℝ)
    (h : List.foldl npMaxF (some a) l = some x) :
    (x = a ∨ some x ∈ l) ∧ a ≤ x ∧ ∀ y : ℝ, some y ∈ l → y ≤ x := by
  induction l generalizing a with
  | nil =>
    simp only [List.foldl_nil] at h
    have hx : x = a := (Option.some.inj h).symm
    exact ⟨Or.inl hx, le_of_eq hx.symm, fun y hy => absurd hy (by simp)⟩
  | cons b l ih =>
    rw [List.foldl_cons] at h
    cases b with
    | none =>
      rw [npMaxF_none_right, foldl_npMaxF_none] at h
      exact absurd h (by simp)
    | some b' =>
      have hstep : npMaxF (some a) (some b') = some (max a b') := rfl
      rw [hstep] at h
      obtain ⟨hmem, hacc, hlist⟩ := ih (max a b') h
      refine ⟨?_, le_trans (le_max_left a b') hacc, ?_⟩
      · rcases hmem with hc | hc
        · rcases max_choice a b' with hm | hm
          · exact Or.inl (by rw [hc, hm])
          · refine Or.inr ?_
            rw [hc, hm]
            exact List.mem_cons_self _ _
        · exact Or.inr (List.mem_cons_of_mem _ hc)
      · intro y hy
        rcases List.mem_cons.1 hy with hc | hc
        · have hy' : y = b' := Option.some.inj hc
          rw [hy']
          exact le_trans (le_max_right a b') hacc
        · exact hlist y hc

/-- Characterization of a successful, finite `np.max`: the result is an
element of the array and an upper bound on all its finite elements. -/
lemma npMaxE_ok_some (l : List NpFloat) (x : ℝ)
    (h : npMaxE l = .ok (some x)) :
    some x ∈ l ∧ ∀ y : ℝ, some y ∈ l → y ≤ x := by
  cases l with
  | nil => exact absurd h (by simp [npMaxE])
  | cons a l =>
    have hfold : List.foldl npMaxF a l = some x := by
      have h2 : Except.ok (ε := String) (List.foldl npMaxF a l) =
          .ok (some x) := h
      exact Except.ok.inj h2
    obtain ⟨a', rfl⟩ := foldl_npMaxF_some_acc l a x hfold
    obtain ⟨hmem, hacc, hlist⟩ := foldl_npMaxF_some l a' x hfold
    constructor
    · rcases hmem with hc | hc
      · rw [hc]
        exact List.mem_cons_self _ _
      · exact List.mem_cons_of_mem _ hc
    · intro y hy
      rcases List.mem_cons.1 hy with hc | hc
      · have hy' : y = a' := Option.some.inj hc
        rw [hy']
        exact hacc
      · exact hlist y hc

lemma npMaxE_cons (a : NpFloat) (l : List NpFloat) :
    npMaxE (a :: l) = .ok (List.foldl npMaxF a l) := rfl

lemma npMaxE_ne_nil (l : List NpFloat) (h : l ≠ []) :
    ∃ v, npMaxE l = .ok v := by
  cases l with
  | nil => exact absurd rfl h
  | cons a l => exact ⟨_, rfl⟩

/-! ## Lemmas about `calculate_similarity` -/

/-- Refinement: the numpy array pipeline of `calculate_similarity` computes
exactly the spec's per-candidate cosine similarity, in candidate order. -/
lemma calculate_similarity_eq_map (E : Embeddings) (question : String)
    (gqs : List String) :
    AnswerRelevancy.calculate_similarity E question gqs =
      (E.embed_documents gqs).map
        (fun v => cosineSimSpec v (E.embed_query question)) := by
  unfold AnswerRelevancy.calculate_similarity
  generalize E.embed_documents gqs = vs
  induction vs with
  | nil => rfl
  | cons v vs ih => simp [cosineSimSpec, ih]

lemma calculate_similarity_length (E : Embeddings) (question : String)
    (gqs : List String) :
    (AnswerRelevancy.calculate_similarity E question gqs).length =
      (E.embed_documents gqs).length := by
  rw [calculate_similarity_eq_map]
  exact List.length_map _ _

/-! ## Lemmas about batching -/

/-- Concatenating the contiguous `bs`-sized chunks of a list recovers it. -/
lemma chunks_flatten_aux {α : Type} (bs : ℕ) (hbs : 0 < bs) :
    ∀ (n : ℕ) (L : List α), L.length ≤ n →
      ((List.range ((L.length + bs - 1) / bs)).map
        (fun i => (L.drop (i * bs)).take bs)).flatten = L := by
  intro n
  induction n with
  | zero =>
    intro L hL
    have h0 : L = [] := List.length_eq_zero.1 (Nat.le_zero.1 hL)
    subst h0
    have hk : (0 + bs - 1) / bs = 0 := Nat.div_eq_of_lt (by omega)
    simp [hk]
  | succ n ih =>
    intro L hL
    by_cases hL0 : L = []
    · subst hL0
      have hk : (0 + bs - 1) / bs = 0 := Nat.div_eq_of_lt (by omega)
      simp [hk]
    · have hlen : 0 < L.length := List.length_pos.2 hL0
      have key : (L.length + bs - 1) / bs =
          ((L.drop bs).length + bs - 1) / bs + 1 := by
        rw [List.length_drop]
        rcases le_or_lt bs L.length with hc | hc
        · have e1 : L.length + bs - 1 = (L.length - 1) + bs := by omega
          have e2 : L.length - bs + bs - 1 = L.length - 1 := by omega
          rw [e1, e2, Nat.add_div_right _ hbs]
        · have e1 : L.length + bs - 1 = (L.length - 1) + bs := by omega
          have e2 : L.length - bs = 0 := by omega
          rw [e1, e2, Nat.add_div_right _ hbs,
            Nat.div_eq_of_lt (by omega : L.length - 1 < bs),
            Nat.div_eq_of_lt (by omega : 0 + bs - 1 < bs)]
      rw [key, List.range_succ_eq_map]
      simp only [List.map_cons, List.flatten_cons, List.map_map]
      have hfun : ((List.range (((L.drop bs).length + bs - 1) / bs)).map
            ((fun i => (L.drop (i * bs)).take bs) ∘ Nat.succ)) =
          (List.range (((L.drop bs).length + bs - 1) / bs)).map
            (fun i => ((L.drop bs).drop (i * bs)).take bs) := by
        apply List.map_congr_left
        intro i _
        simp only [Function.comp_apply, List.drop_drop]
        have he : Nat.succ i * bs = bs + i * bs := by
          rw [Nat.succ_mul, Nat.add_comm]
        rw [he]
      rw [hfun]
      have hdrop : (L.drop bs).length ≤ n := by
        rw [List.length_drop]
        omega
      rw [ih (L.drop bs) hdrop]
      simp [List.take_append_drop]

/-- The batch index ranges, concatenated in order, are exactly the row indices
`0, …, total - 1`: no gap, no overlap, full coverage, order preserved. -/
lemma get_batches_flatten (bs n : ℕ) (hbs : 0 < bs) :
    (get_batches bs n).flatten = List.range n := by
  have h := chunks_flatten_aux bs hbs (List.range n).length (List.range n)
    le_rfl
  simpa [get_batches, List.length_range] using h

lemma get_batches_mem_lt (bs n : ℕ) (hbs : 0 < bs) (b : List ℕ)
    (hb : b ∈ get_batches bs n) (i : ℕ) (hi : i ∈ b) : i < n := by
  have hmem : i ∈ (get_batches bs n).flatten :=
    List.mem_flatten.2 ⟨b, hb, hi⟩
  rw [get_batches_flatten bs n hbs] at hmem
  exact List.mem_range.1 hmem

lemma get_batches_sum_lengths (bs n : ℕ) (hbs : 0 < bs) :
    ((get_batches bs n).map List.length).sum = n := by
  have h := congrArg List.length (get_batches_flatten bs n hbs)
  rw [List.length_flatten, List.length_range] at h
  exact h

/-! ## Lemmas about `select` and `getColumn` -/

@[simp] lemma except_bind_ok {α β : Type} (a : α)
    (f : α → Except String β) : (Except.ok a >>= f) = f a := rfl

@[simp] lemma except_bind_error {α β : Type} (e : String)
    (f : α → Except String β) :
    ((Except.error e : Except String α) >>= f) = Except.error e := rfl

@[simp] lemma except_ok_inj_iff {α : Type} (a b : α) :
    (Except.ok (ε := String) a = Except.ok b) ↔ a = b := by
  constructor
  · exact fun h => Except.ok.inj h
  · intro h
    rw [h]

@[simp] lemma except_error_ne_ok {α : Type} (e : String) (a : α) :
    ¬ (Except.error e = Except.ok (ε := String) a) := fun h =>
  Except.noConfusion h

lemma select_length (d : List Row) (b : List ℕ)
    (h : ∀ i ∈ b, i < d.length) : (select d b).length = b.length := by
  induction b with
  | nil => rfl
  | cons i b ih =>
    have hi : i < d.length := h i (List.mem_cons_self _ _)
    have hget : d.get? i = some d[i] := by
      rw [List.get?_eq_getElem?, List.getElem?_eq_getElem hi]
    have ih' := ih (fun j hj => h j (List.mem_cons_of_mem _ hj))
    simp only [select] at ih' ⊢
    rw [List.filterMap_cons, hget]
    simp only [List.length_cons]
    rw [ih']

lemma select_mem (d : List Row) (b : List ℕ) (r : Row)
    (h : r ∈ select d b) : r ∈ d := by
  obtain ⟨i, _, hget⟩ := List.mem_filterMap.1 h
  exact List.get?_mem hget

lemma getColumn_ok_length (c : String) :
    ∀ (d : List Row) (vs : List String),
      getColumn d c = .ok vs → vs.length = d.length := by
  intro d
  induction d with
  | nil =>
    intro vs h
    have hv : vs = [] := (Except.ok.inj h).symm
    simp [hv]
  | cons r rs ih =>
    intro vs h
    cases hr : r.getStr c with
    | none => simp [getColumn, hr] at h
    | some s =>
      cases hrest : getColumn rs c with
      | error e => simp [getColumn, hr, hrest] at h
      | ok rest =>
        simp only [getColumn, hr, hrest, except_bind_ok,
          except_ok_inj_iff] at h
        rw [← h, List.length_cons, ih rest hrest, List.length_cons]

lemma getColumn_ok_get (c : String) :
    ∀ (d : List Row) (vs : List String), getColumn d c = .ok vs →
      ∀ (i : ℕ) (r : Row), d.get? i = some r →
        ∃ v, vs.get? i = some v ∧ r.getStr c = some v := by
  intro d
  induction d with
  | nil => intro vs h i r hr; simp at hr
  | cons r0 rs ih =>
    intro vs h i r hr
    cases hc : r0.getStr c with
    | none => simp [getColumn, hc] at h
    | some s =>
      cases hrest : getColumn rs c with
      | error e => simp [getColumn, hc, hrest] at h
      | ok rest =>
        simp only [getColumn, hc, hrest, except_bind_ok,
          except_ok_inj_iff] at h
        subst h
        cases i with
        | zero =>
          have hr0 : r = r0 := by
            simp at hr
            exact hr.symm
          exact ⟨s, rfl, hr0 ▸ hc⟩
        | succ i =>
          have hr' : rs.get? i = some r := by simpa using hr
          obtain ⟨v, hv1, hv2⟩ := ih rest hrest i r hr'
          exact ⟨v, by simpa using hv1, hv2⟩

lemma getColumn_ok_of_forall (c : String) :
    ∀ (d : List Row), (∀ r ∈ d, ∃ s, r.getStr c = some s) →
      ∃ vs, getColumn d c = .ok vs := by
  intro d
  induction d with
  | nil => intro _; exact ⟨[], rfl⟩
  | cons r rs ih =>
    intro h
    obtain ⟨s, hs⟩ := h r (List.mem_cons_self _ _)
    obtain ⟨rest, hrest⟩ := ih (fun r' hr' => h r' (List.mem_cons_of_mem _ hr'))
    exact ⟨s :: rest, by simp [getColumn, hs, hrest]⟩

/-! ## Lemmas about the scoring pipeline -/

namespace AnswerRelevancy

lemma scoreRecords_ok_length (E : Embeddings) :
    ∀ (qs : List String) (gens : List (List String)) (s : List NpFloat),
      scoreRecords E qs gens = .ok s →
      s.length = min qs.length gens.length := by
  intro qs
  induction qs with
  | nil =>
    intro gens s h
    have hs : s = [] := (Except.ok.inj h).symm
    simp [hs]
  | cons q qs ih =>
    intro gens s h
    cases gens with
    | nil =>
      have hs : s = [] := (Except.ok.inj h).symm
      simp [hs]
    | cons g gs =>
      cases hm : npMaxE (calculate_similarity E q g) with
      | error e => simp [scoreRecords, hm] at h
      | ok v =>
        cases hr : scoreRecords E qs gs with
        | error e => simp [scoreRecords, hm, hr] at h
        | ok rest =>
          simp only [scoreRecords, hm, hr, except_bind_ok,
            except_ok_inj_iff] at h
          subst h
          simp [ih gs rest hr, Nat.succ_min_succ]

lemma scoreRecords_ok_get (E : Embeddings) :
    ∀ (qs : List String) (gens : List (List String)) (s : List NpFloat),
      scoreRecords E qs gens = .ok s →
      ∀ (i : ℕ) (q : String) (g : List String),
        qs.get? i = some q → gens.get? i = some g →
        ∃ v, s.get? i = some v ∧
          npMaxE (calculate_similarity E q g) = .ok v := by
  intro qs
  induction qs with
  | nil =>
    intro gens s h i q g hq hg
    simp at hq
  | cons q0 qs ih =>
    intro gens s h i q g hq hg
    cases gens with
    | nil => simp at hg
    | cons g0 gs =>
      cases hm : npMaxE (calculate_similarity E q0 g0) with
      | error e => simp [scoreRecords, hm] at h
      | ok v0 =>
        cases hr : scoreRecords E qs gs with
        | error e => simp [scoreRecords, hm, hr] at h
        | ok rest =>
          simp only [scoreRecords, hm, hr, except_bind_ok,
            except_ok_inj_iff] at h
          subst h
          cases i with
          | zero =>
            have hq0 : q0 = q := by simpa using hq
            have hg0 : g0 = g := by simpa using hg
            refine ⟨v0, rfl, ?_⟩
            rw [← hq0, ← hg0]
            exact hm
          | succ i =>
            have hq' : qs.get? i = some q := by simpa using hq
            have hg' : gs.get? i = some g := by simpa using hg
            obtain ⟨v, hv1, hv2⟩ := ih gs rest hr i q g hq' hg'
            exact ⟨v, by simpa using hv1, hv2⟩

lemma scoreRecords_mem (E : Embeddings) :
    ∀ (qs : List String) (gens : List (List String)) (s : List NpFloat),
      scoreRecords E qs gens = .ok s →
      ∀ v ∈ s, ∃ q ∈ qs, ∃ g ∈ gens,
        npMaxE (calculate_similarity E q g) = .ok v := by
  intro qs
  induction qs with
  | nil =>
    intro gens s h v hv
    have hs : s = [] := (Except.ok.inj h).symm
    subst hs
    simp at hv
  | cons q0 qs ih =>
    intro gens s h v hv
    cases gens with
    | nil =>
      have hs : s = [] := (Except.ok.inj h).symm
      subst hs
      simp at hv
    | cons g0 gs =>
      cases hm : npMaxE (calculate_similarity E q0 g0) with
      | error e => simp [scoreRecords, hm] at h
      | ok v0 =>
        cases hr : scoreRecords E qs gs with
        | error e => simp [scoreRecords, hm, hr] at h
        | ok rest =>
          simp only [scoreRecords, hm, hr, except_bind_ok,
            except_ok_inj_iff] at h
          subst h
          rcases List.mem_cons.1 hv with hc | hc
          · subst hc
            exact ⟨q0, List.mem_cons_self _ _, g0, List.mem_cons_self _ _, hm⟩
          · obtain ⟨q, hq, g, hg, hvg⟩ := ih gs rest hr v hc
            exact ⟨q, List.mem_cons_of_mem _ hq, g,
              List.mem_cons_of_mem _ hg, hvg⟩

lemma scoreRecords_ok_of (E : Embeddings) :
    ∀ (qs : List String) (gens : List (List String)),
      (∀ q ∈ qs, ∀ g ∈ gens, calculate_similarity E q g ≠ []) →
      ∃ s, scoreRecords E qs gens = .ok s := by
  intro qs
  induction qs with
  | nil => intro gens _; exact ⟨[], rfl⟩
  | cons q0 qs ih =>
    intro gens h
    cases gens with
    | nil => exact ⟨[], rfl⟩
    | cons g0 gs =>
      obtain ⟨v, hv⟩ := npMaxE_ne_nil _
        (h q0 (List.mem_cons_self _ _) g0 (List.mem_cons_self _ _))
      obtain ⟨rest, hrest⟩ := ih gs
        (fun q hq g hg => h q (List.mem_cons_of_mem _ hq) g
          (List.mem_cons_of_mem _ hg))
      exact ⟨v :: rest, by simp [scoreRecords, hv, hrest]⟩

lemma score_batch_ok_elim (m : AnswerRelevancy) (E : Embeddings)
    (llm : String → ℕ → List String) (d : List Row) (s : List NpFloat)
    (h : m._score_batch E llm d = .ok s) :
    ∃ qs as, getColumn d "question" = .ok qs ∧
      getColumn d "answer" = .ok as ∧
      scoreRecords E qs
        (generate (as.map (fun ans => QUESTION_GEN_format ans))
          llm m.strictness) = .ok s := by
  cases hq : getColumn d "question" with
  | error e => simp [_score_batch, hq] at h
  | ok qs =>
    cases ha : getColumn d "answer" with
    | error e => simp [_score_batch, hq, ha] at h
    | ok as =>
      refine ⟨qs, as, rfl, rfl, ?_⟩
      simpa [_score_batch, hq, ha] using h

lemma score_batch_ok_length (m : AnswerRelevancy) (E : Embeddings)
    (llm : String → ℕ → List String) (d : List Row) (s : List NpFloat)
    (h : m._score_batch E llm d = .ok s) : s.length = d.length := by
  obtain ⟨qs, as, hq, ha, hs⟩ := score_batch_ok_elim m E llm d s h
  have h1 := scoreRecords_ok_length E _ _ _ hs
  rw [getColumn_ok_length "question" d qs hq] at h1
  have h2 : (generate (as.map (fun ans => QUESTION_GEN_format ans))
      llm m.strictness).length = d.length := by
    simp [generate, getColumn_ok_length "answer" d as ha]
  rw [h2, min_self] at h1
  exact h1

lemma score_batch_ok_of (m : AnswerRelevancy) (E : Embeddings)
    (llm : String → ℕ → List String) (d : List Row)
    (hE : ∀ ts, (E.embed_documents ts).length = ts.length)
    (hllm : ∀ p n, (llm p n).length = n)
    (hstrict : 0 < m.strictness)
    (hcols : ∀ r ∈ d, (∃ s, r.getStr "question" = some s) ∧
      (∃ s, r.getStr "answer" = some s)) :
    ∃ s, m._score_batch E llm d = .ok s := by
  obtain ⟨qs, hqs⟩ := getColumn_ok_of_forall "question" d
    (fun r hr => (hcols r hr).1)
  obtain ⟨as, has⟩ := getColumn_ok_of_forall "answer" d
    (fun r hr => (hcols r hr).2)
  obtain ⟨s, hs⟩ := scoreRecords_ok_of E qs
    (generate (as.map (fun ans => QUESTION_GEN_format ans)) llm m.strictness)
    (by
      intro q hq g hg hnil
      obtain ⟨p, _, hp⟩ := List.mem_map.1 hg
      have hlen : (calculate_similarity E q g).length = 0 := by
        rw [hnil]
        rfl
      rw [calculate_similarity_length, hE, ← hp, hllm] at hlen
      omega)
  exact ⟨s, by simp [_score_batch, hqs, has, hs]⟩

lemma scoreBatches_ok_length (m : AnswerRelevancy) (E : Embeddings)
    (llm : String → ℕ → List String) (d : List Row) :
    ∀ (bl : List (List ℕ)) (sc : List NpFloat),
      m.scoreBatches E llm d bl = .ok sc →
      sc.length = (bl.map (fun b => (select d b).length)).sum := by
  intro bl
  induction bl with
  | nil =>
    intro sc h
    have hs : sc = [] := (Except.ok.inj h).symm
    simp [hs]
  | cons b bl ih =>
    intro sc h
    cases hs : m._score_batch E llm (select d b) with
    | error e => simp [scoreBatches, hs] at h
    | ok s =>
      cases hrest : m.scoreBatches E llm d bl with
      | error e => simp [scoreBatches, hs, hrest] at h
      | ok rest =>
        simp only [scoreBatches, hs, hrest, except_bind_ok,
          except_ok_inj_iff] at h
        subst h
        simp [score_batch_ok_length _ _ _ _ _ hs, ih rest hrest]

lemma scoreBatches_mem (m : AnswerRelevancy) (E : Embeddings)
    (llm : String → ℕ → List String) (d : List Row) :
    ∀ (bl : List (List ℕ)) (sc : List NpFloat),
      m.scoreBatches E llm d bl = .ok sc →
      ∀ v ∈ sc, ∃ b ∈ bl, ∃ s, m._score_batch E llm (select d b) = .ok s ∧
        v ∈ s := by
  intro bl
  induction bl with
  | nil =>
    intro sc h v hv
    have hs : sc = [] := (Except.ok.inj h).symm
    subst hs
    simp at hv
  | cons b bl ih =>
    intro sc h v hv
    cases hs : m._score_batch E llm (select d b) with
    | error e => simp [scoreBatches, hs] at h
    | ok s =>
      cases hrest : m.scoreBatches E llm d bl with
      | error e => simp [scoreBatches, hs, hrest] at h
      | ok rest =>
        simp only [scoreBatches, hs, hrest, except_bind_ok,
          except_ok_inj_iff] at h
        subst h
        rcases List.mem_append.1 hv with hc | hc
        · exact ⟨b, List.mem_cons_self _ _, s, hs, hc⟩
        · obtain ⟨b', hb', s', hs', hv'⟩ := ih rest hrest v hc
          exact ⟨b', List.mem_cons_of_mem _ hb', s', hs', hv'⟩

lemma scoreBatches_ok_of (m : AnswerRelevancy) (E : Embeddings)
    (llm : String → ℕ → List String) (d : List Row) :
    ∀ (bl : List (List ℕ)),
      (∀ b ∈ bl, ∃ s, m._score_batch E llm (select d b) = .ok s) →
      ∃ sc, m.scoreBatches E llm d bl = .ok sc := by
  intro bl
  induction bl with
  | nil => intro _; exact ⟨[], rfl⟩
  | cons b bl ih =>
    intro h
    obtain ⟨s, hs⟩ := h b (List.mem_cons_self _ _)
    obtain ⟨rest, hrest⟩ := ih (fun b' hb' => h b' (List.mem_cons_of_mem _ hb'))
    exact ⟨s ++ rest, by simp [scoreBatches, hs, hrest]⟩

lemma score_ok_elim (m : AnswerRelevancy) (E : Embeddings)
    (llm : String → ℕ → List String) (d d' : List Row)
    (h : m.score E llm d = .ok d') :
    ∃ sc, m.scoreBatches E llm d (get_batches m.batch_size d.length) =
        .ok sc ∧
      d.length = sc.length ∧
      d' = List.zipWith (fun r v => Row.mk (r.entries ++ [(m.name, v)])) d
        (sc.map Value.num) := by
  cases hsc : m.scoreBatches E llm d (get_batches m.batch_size d.length) with
  | error e => simp [score, hsc] at h
  | ok sc =>
    have h' : add_column d m.name (sc.map Value.num) = .ok d' := by
      simpa only [score, hsc, except_bind_ok] using h
    rw [add_column] at h'
    by_cases hdup : d.any (fun r => r.hasColumn m.name) = true
    · rw [if_pos hdup] at h'
      exact absurd h' (except_error_ne_ok _ _)
    · rw [if_neg hdup] at h'
      by_cases hlen : d.length = (sc.map Value.num).length
      · refine ⟨sc, rfl, by simpa using hlen, ?_⟩
        rw [if_pos hlen] at h'
        exact (Except.ok.inj h').symm
      · rw [if_neg hlen] at h'
        exact absurd h' (except_error_ne_ok _ _)

lemma score_ok_of (m : AnswerRelevancy) (E : Embeddings)
    (llm : String → ℕ → List String) (d : List Row)
    (hbs : 0 < m.batch_size)
    (hE : ∀ ts, (E.embed_documents ts).length = ts.length)
    (hllm : ∀ p n, (llm p n).length = n)
    (hstrict : 0 < m.strictness)
    (hcols : ∀ r ∈ d, (∃ s, r.getStr "question" = some s) ∧
      (∃ s, r.getStr "answer" = some s))
    (hname : ∀ r ∈ d, r.hasColumn m.name = false) :
    ∃ d', m.score E llm d = .ok d' := by
  obtain ⟨sc, hsc⟩ := scoreBatches_ok_of m E llm d
    (get_batches m.batch_size d.length)
    (fun b hb => score_batch_ok_of m E llm (select d b) hE hllm hstrict
      (fun r hr => hcols r (select_mem d b r hr)))
  have hlen : sc.length = d.length := by
    rw [scoreBatches_ok_length m E llm d _ sc hsc]
    have hmapeq : (get_batches m.batch_size d.length).map
        (fun b => (select d b).length) =
        (get_batches m.batch_size d.length).map List.length := by
      apply List.map_congr_left
      intro b hb
      exact select_length d b
        (fun i hi => get_batches_mem_lt m.batch_size d.length hbs b hb i hi)
    rw [hmapeq, get_batches_sum_lengths m.batch_size d.length hbs]
  have hlen' : d.length = (sc.map Value.num).length := by simp [hlen]
  have hdup : d.any (fun r => r.hasColumn m.name) = false := by
    rw [List.any_eq_false]
    intro r hr
    rw [hname r hr]
    exact Bool.false_ne_true
  refine ⟨List.zipWith (fun r v => Row.mk (r.entries ++ [(m.name, v)])) d
    (sc.map Value.num), ?_⟩
  rw [score]
  rw [hsc, except_bind_ok, add_column, hdup]
  rw [if_neg Bool.false_ne_true, if_pos hlen']

/-! ## Scaling lemmas for cosine similarity -/

lemma dotList_map_mul_left (c : ℝ) :
    ∀ (v w : List ℝ), dotList (v.map (fun x => c * x)) w = c * dotList v w := by
  intro v
  induction v with
  | nil => intro w; simp [dotList]
  | cons a v ih =>
    intro w
    cases w with
    | nil => simp [dotList_nil_right]
    | cons b w =>
      simp only [List.map_cons, dotList_cons, ih]
      ring

lemma dotList_map_mul_right (c : ℝ) :
    ∀ (v w : List ℝ), dotList v (w.map (fun x => c * x)) = c * dotList v w := by
  intro v
  induction v with
  | nil => intro w; simp [dotList]
  | cons a v ih =>
    intro w
    cases w with
    | nil => simp [dotList_nil_right]
    | cons b w =>
      simp only [List.map_cons, dotList_cons, ih]
      ring

lemma l2norm_map_mul (c : ℝ) (hc : 0 ≤ c) (v : List ℝ) :
    l2norm (v.map (fun x => c * x)) = c * l2norm v := by
  unfold l2norm
  rw [dotList_map_mul_left, dotList_map_mul_right, ← mul_assoc,
    (by ring : c * c = c ^ 2), Real.sqrt_mul (sq_nonneg c), Real.sqrt_sq hc]

lemma cosineSimSpec_smul_left (c : ℝ) (hc : 0 < c) (v q : List ℝ) :
    cosineSimSpec (v.map (fun x => c * x)) q = cosineSimSpec v q := by
  unfold cosineSimSpec npDiv
  rw [dotList_map_mul_left, l2norm_map_mul c hc.le]
  by_cases hz : l2norm v * l2norm q = 0
  · have hz' : c * l2norm v * l2norm q = 0 := by
      rw [mul_assoc, hz, mul_zero]
    rw [if_pos hz', if_pos hz]
  · have hz' : ¬ c * l2norm v * l2norm q = 0 := by
      rw [mul_assoc]
      exact mul_ne_zero hc.ne' hz
    rw [if_neg hz', if_neg hz]
    rw [mul_assoc]
    rw [mul_div_mul_left _ _ hc.ne']

lemma cosineSimSpec_smul_right (c : ℝ) (hc : 0 < c) (v q : List ℝ) :
    cosineSimSpec v (q.map (fun x => c * x)) = cosineSimSpec v q := by
  unfold cosineSimSpec npDiv
  rw [dotList_map_mul_right, l2norm_map_mul c hc.le]
  by_cases hz : l2norm v * l2norm q = 0
  · have hz' : l2norm v * (c * l2norm q) = 0 := by
      rw [mul_left_comm, hz, mul_zero]
    rw [if_pos hz', if_pos hz]
  · have hz' : ¬ l2norm v * (c * l2norm q) = 0 := by
      rw [mul_left_comm]
      exact fun hmul => hz (by
        rcases mul_eq_zero.1 hmul with h0 | h0
        · exact absurd h0 hc.ne'
        · exact h0)
    rw [if_neg hz', if_neg hz]
    rw [mul_left_comm]
    rw [mul_div_mul_left _ _ hc.ne']

/-! ## Association-list frame lemma -/

lemma lookup_append_single_ne (c nm : String) (v : Value) :
    ∀ (l : List (String × Value)), c ≠ nm →
      (l ++ [(nm, v)]).lookup c = l.lookup c := by
  intro l hne
  have hb : (c == nm) = false := by simp [hne]
  induction l with
  | nil => simp [List.lookup, hb]
  | cons kv l ih =>
    obtain ⟨k, w⟩ := kv
    by_cases hck : c = k
    · subst hck
      simp [List.lookup]
    · simp only [List.cons_append, List.lookup_cons,
        (by simp [hck] : (c == k) = false)]
      exact ih

end AnswerRelevancy

open AnswerRelevancy

/-! ## Concrete evaluations used by witnesses and counterexamples -/

lemma dot_one_zero : dotList [(1:ℝ), 0] [(1:ℝ), 0] = 1 := by
  norm_num [dotList]

lemma dot_neg_one : dotList [(-1:ℝ), 0] [(-1:ℝ), 0] = 1 := by
  norm_num [dotList]

lemma dot_neg_pos : dotList [(-1:ℝ), 0] [(1:ℝ), 0] = -1 := by
  norm_num [dotList]

lemma dot_e2_e1 : dotList [(0:ℝ), 1] [(1:ℝ), 0] = 0 := by
  norm_num [dotList]

lemma dot_e2_e2 : dotList [(0:ℝ), 1] [(0:ℝ), 1] = 1 := by
  norm_num [dotList]

lemma dot_zero2 : dotList [(0:ℝ), 0] [(0:ℝ), 0] = 0 := by
  norm_num [dotList]

lemma l2norm_e1 : l2norm [(1:ℝ), 0] = 1 := by
  rw [l2norm, dot_one_zero, Real.sqrt_one]

lemma l2norm_e2 : l2norm [(0:ℝ), 1] = 1 := by
  rw [l2norm, dot_e2_e2, Real.sqrt_one]

lemma l2norm_neg_e1 : l2norm [(-1:ℝ), 0] = 1 := by
  rw [l2norm, dot_neg_one, Real.sqrt_one]

lemma l2norm_zero2 : l2norm [(0:ℝ), 0] = 0 := by
  rw [l2norm, dot_zero2, Real.sqrt_zero]

lemma cosineSimSpec_opp : cosineSimSpec [(-1:ℝ), 0] [(1:ℝ), 0] = some (-1) := by
  rw [cosineSimSpec, dot_neg_pos, l2norm_neg_e1, l2norm_e1, npDiv]
  norm_num

lemma cosineSimSpec_same : cosineSimSpec [(1:ℝ), 0] [(1:ℝ), 0] = some 1 := by
  rw [cosineSimSpec, dot_one_zero, l2norm_e1, npDiv]
  norm_num

lemma cosineSimSpec_orth : cosineSimSpec [(0:ℝ), 1] [(1:ℝ), 0] = some 0 := by
  rw [cosineSimSpec, dot_e2_e1, l2norm_e2, l2norm_e1, npDiv]
  norm_num

lemma calcSim_embUnit :
    calculate_similarity embUnit "q" ["c1", "c2"] = [some 1, some 0] := by
  rw [calculate_similarity_eq_map]
  have h1 : embUnit.embed_documents ["c1", "c2"] =
      [[(1:ℝ), 0], [(0:ℝ), 1]] := by
    simp only [embUnit, embedOf, List.map_cons, List.map_nil]
    rw [if_neg (show ¬("c1" : String) = "c2" by decide)]
    simp
  have h2 : embUnit.embed_query "q" = [(1:ℝ), 0] := by
    simp only [embUnit, embedOf]
    rw [if_neg (show ¬("q" : String) = "c2" by decide)]
  rw [h1, h2, List.map_cons, List.map_cons, List.map_nil,
    cosineSimSpec_same, cosineSimSpec_orth]

lemma calcSim_embOpp :
    calculate_similarity embOpp "q" ["x", "x", "x"] =
      [some (-1), some (-1), some (-1)] := by
  rw [calculate_similarity_eq_map]
  have h1 : embOpp.embed_documents ["x", "x", "x"] =
      [[(-1:ℝ), 0], [(-1:ℝ), 0], [(-1:ℝ), 0]] := by
    simp only [embOpp, embedOf, List.map_cons, List.map_nil]
    rw [if_neg (show ¬("x" : String) = "q" by decide)]
  have h2 : embOpp.embed_query "q" = [(1:ℝ), 0] := by
    simp only [embOpp, embedOf]
    simp
  rw [h1, h2, List.map_cons, List.map_cons, List.map_cons, List.map_nil,
    cosineSimSpec_opp]

lemma npMaxE_unit : npMaxE [some 1, some 0] = .ok (some 1) := by
  show Except.ok (List.foldl npMaxF (some 1) [some 0]) = .ok (some 1)
  norm_num [npMaxF]

lemma npMaxE_opp :
    npMaxE [some (-1), some (-1), some (-1)] = .ok (some (-1)) := by
  show Except.ok (List.foldl npMaxF (some (-1)) [some (-1), some (-1)]) =
    .ok (some (-1))
  norm_num [npMaxF]

lemma getColumn_dsOne_q : getColumn dsOne "question" = .ok ["q"] := by
  simp [getColumn, dsOne, Row.getStr]

lemma getColumn_dsOne_a : getColumn dsOne "answer" = .ok ["a"] := by
  have hb : (("answer" : String) == "question") = false := by decide
  simp [getColumn, dsOne, Row.getStr, List.lookup, hb]

lemma scoreRecords_concrete :
    scoreRecords embOpp ["q"] [["x", "x", "x"]] = .ok [some (-1)] := by
  simp [scoreRecords, calcSim_embOpp, npMaxE_opp]

lemma score_batch_concrete :
    metricDefault._score_batch embOpp llmConst dsOne = .ok [some (-1)] := by
  rw [_score_batch, getColumn_dsOne_q, except_bind_ok, getColumn_dsOne_a,
    except_bind_ok]
  show scoreRecords embOpp ["q"] [["x", "x", "x"]] = .ok [some (-1)]
  exact scoreRecords_concrete

lemma get_batches_one : get_batches 15 1 = [[0]] := by decide

lemma select_dsOne : select dsOne [0] = dsOne := rfl

lemma scoreBatches_concrete :
    metricDefault.scoreBatches embOpp llmConst dsOne [[0]] =
      .ok [some (-1)] := by
  rw [scoreBatches, select_dsOne, score_batch_concrete, except_bind_ok,
    scoreBatches, except_bind_ok]
  rfl

lemma score_concrete :
    metricDefault.score embOpp llmConst dsOne = .ok dsOneScored := by
  have hb : get_batches metricDefault.batch_size dsOne.length = [[0]] :=
    get_batches_one
  have hdup : dsOne.any (fun r => r.hasColumn metricDefault.name) = false := by
    decide
  rw [score, hb, scoreBatches_concrete, except_bind_ok, add_column, hdup]
  rw [if_neg Bool.false_ne_true]
  rfl

/-- Shared witness fact: both required columns are present in every row of
`dsOne`. -/
lemma dsOne_cols : ∀ r ∈ dsOne,
    (∃ s, r.getStr "question" = some s) ∧
    (∃ s, r.getStr "answer" = some s) := by
  intro r hr
  have hr' : r = Row.mk [("question", Value.str "q"),
      ("answer", Value.str "a")] := by simpa [dsOne] using hr
  subst hr'
  constructor
  · exact ⟨"q", rfl⟩
  · refine ⟨"a", ?_⟩
    have hb : (("answer" : String) == "question") = false := by decide
    simp [Row.getStr, List.lookup, hb]

/-! ## The claims -/

/-- C2: `calculate_similarity` computes, for each candidate, the dot product
of the candidate's embedding with the question's embedding divided by the
product of their L2 norms, returning the per-candidate similarity vector; in
particular for question vector `[1,0]` and candidate vectors `[[1,0],[0,1]]`
it returns similarities `[1.0, 0.0]`, whose max is `1.0`. -/
theorem claim_C2 :
    (∀ (E : Embeddings) (question : String) (gqs : List String),
      calculate_similarity E question gqs =
        (E.embed_documents gqs).map
          (fun v => cosineSimSpec v (E.embed_query question))) ∧
    calculate_similarity embUnit "q" ["c1", "c2"] = [some 1, some 0] ∧
    npMaxE (calculate_similarity embUnit "q" ["c1", "c2"]) = .ok (some 1) :=
  ⟨calculate_similarity_eq_map, calcSim_embUnit, by
    rw [calcSim_embUnit]
    exact npMaxE_unit⟩

/-- C5: batch slicing partitions the dataset's row indices into contiguous
ranges of size `batch_size` processed in order, with no gaps, no overlaps and
full coverage; with `batch_size = 15` on a 32-row dataset it produces exactly
the ranges `[0:15]`, `[15:30]`, `[30:32]`. -/
theorem claim_C5 :
    (∀ (bs n : ℕ), 0 < bs → (get_batches bs n).flatten = List.range n) ∧
    get_batches 15 32 =
      [[0, 1, 2, 3, 4, 5, 6, 7, 8, 9, 10, 11, 12, 13, 14],
       [15, 16, 17, 18, 19, 20, 21, 22, 23, 24, 25, 26, 27, 28, 29],
       [30, 31]] :=
  ⟨get_batches_flatten, by decide⟩

/-- Witness for C5 at `batch_size = 15`, `total = 32`. -/
theorem claim_C5_witness :
    0 < 15 ∧ (get_batches 15 32).flatten = List.range 32 :=
  ⟨by norm_num, claim_C5.1 15 32 (by norm_num)⟩

/-- C6: for every answer in a batch the question generator requests exactly
`strictness` generated completions per prompt, one prompt per answer. -/
theorem claim_C6 (m : AnswerRelevancy) (llm : String → ℕ → List String)
    (answers : List String) (hllm : ∀ p n, (llm p n).length = n) :
    (generate (answers.map (fun ans => QUESTION_GEN_format ans)) llm
        m.strictness).length = answers.length ∧
    ∀ r ∈ generate (answers.map (fun ans => QUESTION_GEN_format ans)) llm
        m.strictness, r.length = m.strictness := by
  constructor
  · simp [generate]
  · intro r hr
    simp only [generate] at hr
    obtain ⟨p, _, hpr⟩ := List.mem_map.1 hr
    rw [← hpr]
    exact hllm p m.strictness

/-- Witness for C6 on a one-answer batch with the default configuration. -/
theorem claim_C6_witness :
    (generate ((["a"] : List String).map
        (fun ans => QUESTION_GEN_format ans)) llmConst
        metricDefault.strictness).length = (["a"] : List String).length ∧
    ∀ r ∈ generate ((["a"] : List String).map
        (fun ans => QUESTION_GEN_format ans)) llmConst
        metricDefault.strictness, r.length = metricDefault.strictness :=
  claim_C6 metricDefault llmConst ["a"] (fun p n => by simp [llmConst])

/-- C7: a candidate whose embedding has zero L2 norm makes
`calculate_similarity` divide by zero unguarded, so that candidate's
similarity is the non-finite float NaN (modelled `none`), not a silent `0`. -/
theorem claim_C7 (E : Embeddings) (question : String) (gqs : List String)
    (i : ℕ) (v : List ℝ)
    (hv : (E.embed_documents gqs).get? i = some v)
    (hz : l2norm v = 0) :
    (calculate_similarity E question gqs).get? i = some none := by
  rw [calculate_similarity_eq_map, List.get?_eq_getElem?, List.getElem?_map]
  rw [List.get?_eq_getElem?] at hv
  rw [hv]
  simp [cosineSimSpec, npDiv, hz]

/-- Witness for C7 on the zero-vector candidate embedding. -/
theorem claim_C7_witness :
    (calculate_similarity embZero "q" ["z"]).get? 0 = some none :=
  claim_C7 embZero "q" ["z"] 0 [(0:ℝ), 0]
    (by
      have h1 : embZero.embed_documents ["z"] = [[(0:ℝ), 0]] := by
        simp only [embZero, embedOf, List.map_cons, List.map_nil]
        rw [if_neg (show ¬("z" : String) = "q" by decide)]
      rw [h1]
      rfl)
    l2norm_zero2

/-- C10: the similarity computed by `calculate_similarity` is invariant under
positive scaling of the candidate embeddings and of the question embedding. -/
theorem claim_C10 (E : Embeddings) (c : ℝ) (hc : 0 < c)
    (question : String) (gqs : List String) :
    calculate_similarity (scaleDocs c E) question gqs =
      calculate_similarity E question gqs ∧
    calculate_similarity (scaleQuery c E) question gqs =
      calculate_similarity E question gqs := by
  constructor
  · rw [calculate_similarity_eq_map, calculate_similarity_eq_map]
    simp only [scaleDocs, List.map_map]
    apply List.map_congr_left
    intro v _
    simp only [Function.comp_apply]
    exact cosineSimSpec_smul_left c hc v (E.embed_query question)
  · rw [calculate_similarity_eq_map, calculate_similarity_eq_map]
    simp only [scaleQuery]
    apply List.map_congr_left
    intro v _
    exact cosineSimSpec_smul_right c hc v (E.embed_query question)

/-- Witness for C10 with scaling factor 2. -/
theorem claim_C10_witness :
    calculate_similarity (scaleDocs 2 embUnit) "q" ["c1"] =
      calculate_similarity embUnit "q" ["c1"] ∧
    calculate_similarity (scaleQuery 2 embUnit) "q" ["c1"] =
      calculate_similarity embUnit "q" ["c1"] :=
  claim_C10 embUnit 2 (by norm_num) "q" ["c1"]

/-- C1: on any dataset whose rows carry the required text columns and do not
already carry a column named `m.name` (the library's `add_column` refuses a
duplicate column name), under the documented collaborator contracts, `score`
returns a table with exactly the same row count and row order as the input,
with only the single new score column (named by the metric's `name` field)
appended, one score per record. -/
theorem claim_C1 (m : AnswerRelevancy) (E : Embeddings)
    (llm : String → ℕ → List String) (d : List Row)
    (hbs : 0 < m.batch_size) (hstrict : 0 < m.strictness)
    (hE : ∀ ts, (E.embed_documents ts).length = ts.length)
    (hllm : ∀ p n, (llm p n).length = n)
    (hcols : ∀ r ∈ d, (∃ s, r.getStr "question" = some s) ∧
      (∃ s, r.getStr "answer" = some s))
    (hname : ∀ r ∈ d, r.hasColumn m.name = false) :
    ∃ d', m.score E llm d = .ok d' ∧ d'.length = d.length ∧
      ∀ (i : ℕ) (hi' : i < d'.length) (hi : i < d.length),
        ∃ v : NpFloat, (d'.get ⟨i, hi'⟩).entries =
          (d.get ⟨i, hi⟩).entries ++ [(m.name, Value.num v)] := by
  obtain ⟨d', hd'⟩ := score_ok_of m E llm d hbs hE hllm hstrict hcols hname
  obtain ⟨sc, hsc, hlen, hzip⟩ := score_ok_elim m E llm d d' hd'
  refine ⟨d', hd', ?_, ?_⟩
  · rw [hzip, List.length_zipWith, List.length_map, ← hlen, min_self]
  · intro i hi' hi
    have hisc : i < sc.length := by omega
    refine ⟨sc.get ⟨i, hisc⟩, ?_⟩
    subst hzip
    simp only [List.get_eq_getElem, List.getElem_zipWith, List.getElem_map]

/-- Witness for C1 on a concrete one-row dataset and clients. -/
theorem claim_C1_witness :
    ∃ d', metricDefault.score embOpp llmConst dsOne = .ok d' ∧
      d'.length = dsOne.length ∧
      ∀ (i : ℕ) (hi' : i < d'.length) (hi : i < dsOne.length),
        ∃ v : NpFloat, (d'.get ⟨i, hi'⟩).entries =
          (dsOne.get ⟨i, hi⟩).entries ++
            [(metricDefault.name, Value.num v)] :=
  claim_C1 metricDefault embOpp llmConst dsOne (by decide) (by decide)
    (fun ts => by simp [embOpp, embedOf])
    (fun p n => by simp [llmConst]) dsOne_cols (by decide)

/-- C3: for every record of a successfully scored batch, the per-record score
is the `np.max` of the cosine similarities between the question and all
`strictness` generated candidate questions: the similarity vector has exactly
`strictness` entries, and a finite score is an element of that vector that
bounds all its finite entries (the maximum, not an average). -/
theorem claim_C3 (m : AnswerRelevancy) (E : Embeddings)
    (llm : String → ℕ → List String) (d : List Row)
    (qs as : List String) (s : List NpFloat)
    (hE : ∀ ts, (E.embed_documents ts).length = ts.length)
    (hllm : ∀ p n, (llm p n).length = n)
    (hq : getColumn d "question" = .ok qs)
    (ha : getColumn d "answer" = .ok as)
    (h : m._score_batch E llm d = .ok s) :
    ∀ (i : ℕ) (q a : String), qs.get? i = some q → as.get? i = some a →
      ∃ v, s.get? i = some v ∧
        npMaxE (calculate_similarity E q
          (llm (QUESTION_GEN_format a) m.strictness)) = .ok v ∧
        (calculate_similarity E q
          (llm (QUESTION_GEN_format a) m.strictness)).length =
          m.strictness ∧
        ∀ x : ℝ, v = some x →
          some x ∈ calculate_similarity E q
            (llm (QUESTION_GEN_format a) m.strictness) ∧
          ∀ y : ℝ, some y ∈ calculate_similarity E q
            (llm (QUESTION_GEN_format a) m.strictness) → y ≤ x := by
  intro i q a hqi hai
  obtain ⟨qs', as', hq', ha', hsr⟩ := score_batch_ok_elim m E llm d s h
  have hqq : qs' = qs := by
    rw [hq'] at hq
    exact Except.ok.inj hq
  have haa : as' = as := by
    rw [ha'] at ha
    exact Except.ok.inj ha
  rw [hqq, haa] at hsr
  have hgi : (generate (as.map (fun ans => QUESTION_GEN_format ans)) llm
      m.strictness).get? i =
      some (llm (QUESTION_GEN_format a) m.strictness) := by
    have hai' : as[i]? = some a := by
      rw [← List.get?_eq_getElem?]
      exact hai
    simp [generate, List.get?_eq_getElem?, List.getElem?_map, hai']
  obtain ⟨v, hvi, hmax⟩ := scoreRecords_ok_get E qs _ s hsr i q _ hqi hgi
  refine ⟨v, hvi, hmax, ?_, ?_⟩
  · rw [calculate_similarity_length, hE, hllm]
  · intro x hx
    subst hx
    exact npMaxE_ok_some _ x hmax

/-- Witness for C3 on the concrete one-row batch. -/
theorem claim_C3_witness :
    ∃ v, ([some (-1)] : List NpFloat).get? 0 = some v ∧
      npMaxE (calculate_similarity embOpp "q"
        (llmConst (QUESTION_GEN_format "a") metricDefault.strictness)) =
        .ok v ∧
      (calculate_similarity embOpp "q"
        (llmConst (QUESTION_GEN_format "a")
          metricDefault.strictness)).length = metricDefault.strictness ∧
      ∀ x : ℝ, v = some x →
        some x ∈ calculate_similarity embOpp "q"
          (llmConst (QUESTION_GEN_format "a") metricDefault.strictness) ∧
        ∀ y : ℝ, some y ∈ calculate_similarity embOpp "q"
          (llmConst (QUESTION_GEN_format "a") metricDefault.strictness) →
          y ≤ x :=
  claim_C3 metricDefault embOpp llmConst dsOne ["q"] ["a"] [some (-1)]
    (fun ts => by simp [embOpp, embedOf])
    (fun p n => by simp [llmConst])
    getColumn_dsOne_q getColumn_dsOne_a score_batch_concrete 0 "q" "a"
    rfl rfl

/-- C4 (amended): scores are cosine similarities, so every *finite* score
value produced by `score` lies in `[-1, 1]`; the interval `[0, 1]` claimed by
the spec is not an invariant of the code (see the counterexample). -/
theorem claim_C4 (m : AnswerRelevancy) (E : Embeddings)
    (llm : String → ℕ → List String) (d d' : List Row)
    (h : m.score E llm d = .ok d') :
    ∃ sc : List NpFloat,
      d' = List.zipWith (fun r v => Row.mk (r.entries ++ [(m.name, v)])) d
        (sc.map Value.num) ∧
      ∀ v ∈ sc, ∀ x : ℝ, v = some x → -1 ≤ x ∧ x ≤ 1 := by
  obtain ⟨sc, hsc, hlen, hzip⟩ := score_ok_elim m E llm d d' h
  refine ⟨sc, hzip, ?_⟩
  intro v hv x hx
  subst hx
  obtain ⟨b, hb, s, hsb, hvs⟩ :=
    scoreBatches_mem m E llm d _ sc hsc (some x) hv
  obtain ⟨qs, as, hq', ha', hsr⟩ := score_batch_ok_elim m E llm _ s hsb
  obtain ⟨q, _, g, _, hmax⟩ := scoreRecords_mem E qs _ s hsr (some x) hvs
  obtain ⟨hmem, _⟩ := npMaxE_ok_some _ x hmax
  rw [calculate_similarity_eq_map] at hmem
  obtain ⟨w, _, hws⟩ := List.mem_map.1 hmem
  exact cosineSimSpec_mem_Icc w (E.embed_query q) x hws

/-- C4 counterexample: with an embedding client that embeds every candidate
opposite to the question, `score` succeeds and produces the score `-1`, which
is not in `[0, 1]` — the claimed interval `[0, 1]` fails on the code. -/
theorem claim_C4_counterexample :
    metricDefault.score embOpp llmConst dsOne = .ok dsOneScored ∧
    (dsOneScored.get ⟨0, by norm_num [dsOneScored]⟩).entries.lookup
      "answer_relevancy" = some (Value.num (some (-1))) ∧
    ¬ (0:ℝ) ≤ -1 := by
  refine ⟨score_concrete, ?_, by norm_num⟩
  have hb1 : (("answer_relevancy" : String) == "question") = false := by
    decide
  have hb2 : (("answer_relevancy" : String) == "answer") = false := by decide
  simp [dsOneScored, List.lookup, hb1, hb2]

/-- Witness for the amended C4 on the concrete run that produces score `-1`. -/
theorem claim_C4_witness :
    ∃ sc : List NpFloat,
      dsOneScored = List.zipWith
        (fun r v => Row.mk (r.entries ++ [(metricDefault.name, v)])) dsOne
        (sc.map Value.num) ∧
      ∀ v ∈ sc, ∀ x : ℝ, v = some x → -1 ≤ x ∧ x ≤ 1 :=
  claim_C4 metricDefault embOpp llmConst dsOne dsOneScored score_concrete

/-- C8: all columns of the input dataset other than the appended score column
are passed through to the output unchanged, in content and in name: looking
up any column other than `m.name` in an output row gives exactly what it
gives in the corresponding input row. -/
theorem claim_C8 (m : AnswerRelevancy) (E : Embeddings)
    (llm : String → ℕ → List String) (d d' : List Row)
    (h : m.score E llm d = .ok d') :
    ∀ (i : ℕ) (hi' : i < d'.length) (hi : i < d.length) (c : String),
      c ≠ m.name →
      (d'.get ⟨i, hi'⟩).entries.lookup c =
        (d.get ⟨i, hi⟩).entries.lookup c := by
  obtain ⟨sc, hsc, hlen, hzip⟩ := score_ok_elim m E llm d d' h
  subst hzip
  intro i hi' hi c hc
  simp only [List.get_eq_getElem, List.getElem_zipWith]
  exact lookup_append_single_ne c m.name _ _ hc

/-- Witness for C8: the "question" column of the concrete scored dataset is
unchanged. -/
theorem claim_C8_witness :
    (dsOneScored.get ⟨0, by norm_num [dsOneScored]⟩).entries.lookup
        "question" =
      (dsOne.get ⟨0, by norm_num [dsOne]⟩).entries.lookup "question" :=
  claim_C8 metricDefault embOpp llmConst dsOne dsOneScored score_concrete 0
    (by norm_num [dsOneScored]) (by norm_num [dsOne]) "question" (by decide)

/-- C9: if the generation model returns an empty candidate list for a record,
`_score_batch` fails with an exception (the `np.max` reduction over the empty
similarity vector raises) instead of producing a default score: no scored
table is returned. -/
theorem claim_C9 (m : AnswerRelevancy) (E : Embeddings)
    (llm : String → ℕ → List String) (d : List Row)
    (hdocs : E.embed_documents [] = [])
    (hllm0 : ∀ p, llm p m.strictness = [])
    (hne : d ≠ [])
    (hcols : ∀ r ∈ d, (∃ s, r.getStr "question" = some s) ∧
      (∃ s, r.getStr "answer" = some s)) :
    ∃ e, m._score_batch E llm d = .error e := by
  obtain ⟨qs, hqs⟩ := getColumn_ok_of_forall "question" d
    (fun r hr => (hcols r hr).1)
  obtain ⟨as, has⟩ := getColumn_ok_of_forall "answer" d
    (fun r hr => (hcols r hr).2)
  have hql : qs.length = d.length := getColumn_ok_length "question" d qs hqs
  have hal : as.length = d.length := getColumn_ok_length "answer" d as has
  have hd0 : 0 < d.length := List.length_pos.2 hne
  cases qs with
  | nil =>
    rw [List.length_nil] at hql
    omega
  | cons q qs' =>
    cases as with
    | nil =>
      rw [List.length_nil] at hal
      omega
    | cons a as' =>
      have hcs : calculate_similarity E q [] = [] := by
        rw [calculate_similarity_eq_map, hdocs]
        rfl
      refine ⟨"zero-size array to reduction operation maximum", ?_⟩
      rw [_score_batch, hqs, except_bind_ok, has, except_bind_ok]
      show scoreRecords E (q :: qs')
        (generate ((a :: as').map (fun ans => QUESTION_GEN_format ans)) llm
          m.strictness) = _
      have hgen : generate
          ((a :: as').map (fun ans => QUESTION_GEN_format ans)) llm
            m.strictness =
          [] :: (as'.map (fun ans => QUESTION_GEN_format ans)).map
            (fun p => llm p m.strictness) := by
        simp only [generate, List.map_cons]
        rw [hllm0]
      rw [hgen]
      simp only [scoreRecords, hcs]
      have hmax : npMaxE [] =
          .error "zero-size array to reduction operation maximum" := rfl
      rw [hmax, except_bind_error]

/-- Witness for C9: a generation model that returns no completions makes the
concrete one-row batch fail. -/
theorem claim_C9_witness :
    ∃ e, metricDefault._score_batch embOpp llmEmpty dsOne = .error e :=
  claim_C9 metricDefault embOpp llmEmpty dsOne rfl (fun p => rfl)
    (by simp [dsOne]) dsOne_cols
